import Mathlib

/-!
Shallow embedding of the IAM model of CISO Assistant
(`backend/iam/models.py`): the folder tree, roles, role assignments,
the access evaluator `is_access_allowed`, the bulk enumerators
`get_accessible_folders` and `get_accessible_object_ids`, the
permission aggregators, and the domain provisioner
`create_default_ug_and_ra`.

Conventions of the embedding:
* Database rows are Lean structures; primary keys are `Nat` ids and
  foreign keys are the referenced ids (Django compares model objects
  by primary key, so id equality is object equality).
* Unbounded `while`-loops and recursive generators walking the folder
  tree take an explicit `fuel : Nat` bound; under the acyclicity
  invariant of the tree they stabilize once the fuel exceeds the
  length of the parent chain (proved below).
* Querysets are lists; Python sets are modelled as lists whose
  membership is what theorems speak about.
-/

namespace Iam

/-- Content type of a folder (`Folder.ContentType`): ROOT ("GL"),
DOMAIN ("DO"), ENCLAVE ("EN"). -/
inductive ContentType where
  | ROOT
  | DOMAIN
  | ENCLAVE
deriving DecidableEq, Repr

/-- A folder row: primary key, name, content type, optional parent
folder id, builtin flag (`class Folder`). -/
structure Folder where
  id : Nat
  name : String
  content_type : ContentType
  parent_folder : Option Nat
  builtin : Bool
deriving DecidableEq, Repr

/-- A role row: primary key, name and its permission set, permissions
being identified by their codename strings (`class Role`). -/
structure Role where
  id : Nat
  name : String
  permissions : List String
deriving DecidableEq, Repr

/-- A role assignment row (`class RoleAssignment`): principal
(user XOR user group), role, the unused direct `folder` attribute
from `FolderMixin`, the perimeter folders, the `is_recursive` flag
and the builtin flag.  The role is embedded by value: the foreign key
always resolves. -/
structure RoleAssignment where
  id : Nat
  user : Option Nat
  user_group : Option Nat
  role : Role
  folder : Nat
  perimeter_folders : List Nat
  is_recursive : Bool
  builtin : Bool
deriving DecidableEq, Repr

/-- A user group row (`class UserGroup`): primary key, codename,
owning folder, builtin flag. -/
structure UserGroup where
  id : Nat
  name : String
  folder : Nat
  builtin : Bool
deriving DecidableEq, Repr

/-- A user row (`class User`): primary key and the ids of the user
groups it belongs to (`user_groups` many-to-many). -/
structure User where
  id : Nat
  user_groups : List Nat
deriving DecidableEq, Repr

/-- A principal is a user or a user group
(`AbstractBaseUser | UserGroup` in the Python signatures).  A group
principal has no `user_groups` attribute, which
`get_role_assignments` tests with `hasattr`. -/
inductive Principal where
  | user : User → Principal
  | group : Nat → Principal
deriving DecidableEq, Repr

/-- The committed state the engine reads: the folder table, the role
table, the role assignment table and the user group table, plus the
next fresh primary key used when rows are created. -/
structure Env where
  folders : List Folder
  roles : List Role
  role_assignments : List RoleAssignment
  user_groups : List UserGroup
  next_id : Nat
deriving DecidableEq, Repr

/-! ### Folder tree navigation -/

/-- Look a folder up by id in the folder table. -/
def findFolder (folders : List Folder) (fid : Nat) : Option Folder :=
  folders.find? (fun g => g.id == fid)

/-- The parent folder id of a folder, `none` when the folder has no
parent (or the id is not in the table). -/
def parentOf (folders : List Folder) (fid : Nat) : Option Nat :=
  match findFolder folders fid with
  | some g => g.parent_folder
  | none => none

/-- The content type of a folder id, when the folder exists. -/
def contentOf (folders : List Folder) (fid : Nat) : Option ContentType :=
  (findFolder folders fid).map (fun g => g.content_type)

/-- `Folder.get_parent_folders`: the generator walking
`current_folder.parent_folder` until it is `None`, yielding the
proper ancestors in order.  `fuel` bounds the walk; under the tree
invariant the result is fuel-independent once fuel is large enough
(theorem for claim C10). -/
def get_parent_folders (folders : List Folder) : Nat → Nat → List Nat
  | 0, _ => []
  | fuel + 1, fid =>
      match parentOf folders fid with
      | none => []
      | some p => p :: get_parent_folders folders fuel p

/-- `Folder.get_sub_folders`: depth-first generator of the folders
transitively under `fid` (children are the folders whose
`parent_folder` is `fid`), excluding `fid` itself. -/
def get_sub_folders (folders : List Folder) : Nat → Nat → List Nat
  | 0, _ => []
  | fuel + 1, fid =>
      (folders.filter (fun g => g.parent_folder == some fid)).flatMap
        (fun c => c.id :: get_sub_folders folders fuel c.id)

/-- `_get_root_folder` / `Folder.get_root_folder`:
`Folder.objects.get(content_type=ROOT)` under a bare `except`
returning `None`, i.e. the unique ROOT folder if there is exactly
one, else `none`. -/
def getRootFolder (folders : List Folder) : Option Folder :=
  match folders.filter (fun g => g.content_type == ContentType.ROOT) with
  | [g] => some g
  | _ => none

/-! ### Role assignments of a principal -/

/-- `principal.roleassignment_set.all()` for a user principal: the
assignments whose `user` foreign key is this user. -/
def raSetOfUser (ras : List RoleAssignment) (uid : Nat) : List RoleAssignment :=
  ras.filter (fun ra => ra.user == some uid)

/-- `group.roleassignment_set.all()`: the assignments whose
`user_group` foreign key is this group. -/
def raSetOfGroup (ras : List RoleAssignment) (gid : Nat) : List RoleAssignment :=
  ras.filter (fun ra => ra.user_group == some gid)

/-- `RoleAssignment.get_role_assignments(principal)`: the direct
assignments, then (when the principal has a `user_groups` attribute,
i.e. is a user) the assignments of each of its groups, then — as in
the source — the direct assignments a second time. -/
def get_role_assignments (env : Env) (principal : Principal) : List RoleAssignment :=
  match principal with
  | Principal.user u =>
      raSetOfUser env.role_assignments u.id
        ++ u.user_groups.flatMap (fun gid => raSetOfGroup env.role_assignments gid)
        ++ raSetOfUser env.role_assignments u.id
  | Principal.group gid =>
      raSetOfGroup env.role_assignments gid
        ++ raSetOfGroup env.role_assignments gid

/-! ### The access evaluator -/

/-- The codename of the tagging permission fetched at the top of
`is_access_allowed` (`Permission.objects.get(codename="add_filteringlabel")`). -/
def add_tag_permission : String := "add_filteringlabel"

/-- The inner `while f is not None` loop of `is_access_allowed`:
starting from `folder`, check whether the current folder belongs to
the assignment's perimeter while the role carries the permission,
else move to the parent folder.  `fuel` bounds the walk. -/
def folderWalk (folders : List Folder) (perimeter : List Nat) (rolePerms : List String)
    (perm : String) : Nat → Option Nat → Bool
  | _, none => false
  | 0, some _ => false
  | fuel + 1, some fid =>
      if perimeter.contains fid && rolePerms.contains perm then true
      else folderWalk folders perimeter rolePerms perm fuel (parentOf folders fid)

/-- The body of `is_access_allowed` evaluated over an explicit list of
role assignments (the list `get_role_assignments` returns). -/
def is_access_allowed_over (folders : List Folder) (fuel : Nat) (ras : List RoleAssignment)
    (perm : String) (folder : Nat) : Bool :=
  ras.any (fun ra =>
    ((perm == add_tag_permission) && ra.role.permissions.contains perm)
      || folderWalk folders ra.perimeter_folders ra.role.permissions perm fuel (some folder))

/-- `RoleAssignment.is_access_allowed(user, perm, folder)`. -/
def is_access_allowed (env : Env) (fuel : Nat) (user : Principal) (perm : String)
    (folder : Nat) : Bool :=
  is_access_allowed_over env.folders fuel (get_role_assignments env user) perm folder

/-! ### Permission aggregation -/

/-- The key set of the dict built by `RoleAssignment.get_permissions`
over an explicit assignment list: every codename of every role of
every assignment (the dict value is derived from the codename, so
the mapping is determined by this key set). -/
def get_permissions_over (ras : List RoleAssignment) : List String :=
  ras.flatMap (fun ra => ra.role.permissions)

/-- `RoleAssignment.get_permissions(principal)`, as its key set. -/
def get_permissions (env : Env) (principal : Principal) : List String :=
  get_permissions_over (get_role_assignments env principal)

/-! ### Accessible folders -/

/-- Content type filter of `get_accessible_folders`:
`x.content_type == content_type if content_type else True`. -/
def contentTypeOk (folders : List Folder) (ct : Option ContentType) (fid : Nat) : Bool :=
  match ct with
  | none => true
  | some c => contentOf folders fid == some c

/-- `RoleAssignment.get_accessible_folders(folder, user, content_type,
codename)`: for every assignment of the user whose role contains both
`view_folder` and `codename`, collect each perimeter folder and all
its sub-folders (unconditionally), then keep those inside
`{folder} ∪ sub_folders(folder)` that pass the content type filter.
The source returns ids collected in a Python set; the embedding
returns the list whose membership is that set. -/
def get_accessible_folders (env : Env) (fuel : Nat) (folder : Nat) (user : Principal)
    (content_type : Option ContentType) (codename : String) : List Nat :=
  let folders_set :=
    ((get_role_assignments env user).filter (fun ra =>
        ra.role.permissions.contains "view_folder"
          && ra.role.permissions.contains codename)).flatMap
      (fun ra => ra.perimeter_folders.flatMap
        (fun f => f :: get_sub_folders env.folders fuel f))
  let perimeter := folder :: get_sub_folders env.folders fuel folder
  folders_set.filter (fun x => contentTypeOk env.folders content_type x && perimeter.contains x)

/-! ### Accessible objects -/

/-- How a resource kind resolves its owning folder in
`get_accessible_object_ids`: the first attribute among `folder`,
`risk_assessment`, `entity`, `provider_entity`, `parent_folder` that
the model class has, or none of them (`NotImplementedError`). -/
inductive FolderRef where
  | direct
  | viaRiskAssessment
  | viaEntity
  | viaProviderEntity
  | isFolder
  | unsupported
deriving DecidableEq, Repr

/-- A resource kind (`object_type`): its lowercase class name (used to
build the `view_/change_/delete_` codenames), its folder resolution
attribute, and whether it has an `is_published` attribute. -/
structure ObjectType where
  className : String
  locator : FolderRef
  hasIsPublished : Bool
deriving DecidableEq, Repr

/-- An object row of some resource kind.  `folder` is the id of its
resolved owning folder: the object's own `folder` attribute for
direct kinds, or the folder reached through the kind's fixed relation
(`risk_assessment__folder`, `entity__folder`,
`provider_entity__folder`) — the queryset filters below compare
exactly that resolved folder. -/
structure Obj where
  id : Nat
  folder : Nat
  is_published : Bool
deriving DecidableEq, Repr

/-- The per-folder object query of `get_accessible_object_ids`:
ids of the objects of the kind located in folder `f`, `[f]` itself
when the kind is `Folder`, and `none` (`NotImplementedError`) for an
unsupported kind. -/
def objectsLocatedIn (kind : ObjectType) (objs : List Obj) (f : Nat) : Option (List Nat) :=
  match kind.locator with
  | FolderRef.direct => some ((objs.filter (fun o => o.folder == f)).map (fun o => o.id))
  | FolderRef.viaRiskAssessment => some ((objs.filter (fun o => o.folder == f)).map (fun o => o.id))
  | FolderRef.viaEntity => some ((objs.filter (fun o => o.folder == f)).map (fun o => o.id))
  | FolderRef.viaProviderEntity => some ((objs.filter (fun o => o.folder == f)).map (fun o => o.id))
  | FolderRef.isFolder => some [f]
  | FolderRef.unsupported => none

/-- The scope `{folder} ∪ folder.get_sub_folders()` (the variable
`perimeter` of `get_accessible_object_ids`). -/
def scopeFolders (folders : List Folder) (fuel : Nat) (folder : Nat) : List Nat :=
  folder :: get_sub_folders folders fuel folder

/-- The assignments of the user whose role contains `view_folder`
(the `role_assignments` list of `get_accessible_object_ids`). -/
def viewFolderAssignments (env : Env) (user : Principal) : List RoleAssignment :=
  (get_role_assignments env user).filter
    (fun ra => ra.role.permissions.contains "view_folder")

/-- The expanded perimeter `ra_perimeter` of one assignment: its
perimeter folders, extended with all their sub-folders exactly when
`is_recursive` is set. -/
def raPerimeterExp (folders : List Folder) (fuel : Nat) (ra : RoleAssignment) : List Nat :=
  if ra.is_recursive then
    ra.perimeter_folders ++ ra.perimeter_folders.flatMap (get_sub_folders folders fuel)
  else
    ra.perimeter_folders

/-- The three object codenames `view_/change_/delete_<class_name>`. -/
def objPermTokens (className : String) : List String :=
  ["view_" ++ className, "change_" ++ className, "delete_" ++ className]

/-- The set `result_folders[f]` of `get_accessible_object_ids`: the
object permissions some view-capable assignment of the user grants on
folder `f`, which must lie in the scope of `folder` and in the
assignment's expanded perimeter. -/
def folderGrants (env : Env) (fuel : Nat) (folder : Nat) (user : Principal)
    (className : String) (f : Nat) : List String :=
  (viewFolderAssignments env user).flatMap (fun ra =>
    if (scopeFolders env.folders fuel folder).contains f
        && (raPerimeterExp env.folders fuel ra).contains f then
      (objPermTokens className).filter (fun p => ra.role.permissions.contains p)
    else [])

/-- The key set of the `result_folders` defaultdict: the folders of
the scope on which the user has at least one recorded object grant. -/
def grantKeys (env : Env) (fuel : Nat) (folder : Nat) (user : Principal)
    (className : String) : List Nat :=
  (scopeFolders env.folders fuel folder).filter
    (fun f => !(folderGrants env fuel folder user className f).isEmpty)

/-- `RoleAssignment.get_accessible_object_ids(folder, user,
object_type)`: the triple (view ids, change ids, delete ids), `none`
when the `NotImplementedError` is raised — the `hasattr` dispatch does
not depend on the folder, so the error fires exactly when the kind is
unsupported and some folder has a recorded grant.  The publication
overlay adds, to the view ids only, every published object located in
an ancestor of a non-ENCLAVE folder with a local view grant, for
kinds having both `is_published` and a direct `folder` attribute. -/
def get_accessible_object_ids (env : Env) (fuel : Nat) (folder : Nat) (user : Principal)
    (kind : ObjectType) (objs : List Obj) : Option (List Nat × List Nat × List Nat) :=
  let keys := grantKeys env fuel folder user kind.className
  if kind.locator == FolderRef.unsupported && !keys.isEmpty then none
  else
    let grants := folderGrants env fuel folder user kind.className
    let idsOf := fun f => (objectsLocatedIn kind objs f).getD []
    let result_view := keys.flatMap (fun f =>
      if (grants f).contains ("view_" ++ kind.className) then idsOf f else [])
    let result_change := keys.flatMap (fun f =>
      if (grants f).contains ("change_" ++ kind.className) then idsOf f else [])
    let result_delete := keys.flatMap (fun f =>
      if (grants f).contains ("delete_" ++ kind.className) then idsOf f else [])
    let published_extra :=
      if kind.hasIsPublished && kind.locator == FolderRef.direct then
        (keys.filter (fun f => (grants f).contains ("view_" ++ kind.className))).flatMap
          (fun f =>
            if contentOf env.folders f != some ContentType.ENCLAVE then
              (get_parent_folders env.folders fuel f).flatMap (fun a =>
                (objs.filter (fun o => o.folder == a && o.is_published)).map (fun o => o.id))
            else [])
      else []
    some (result_view ++ published_extra, result_change, result_delete)

/-- First component (view ids) of an optional result triple. -/
def viewOf (r : Option (List Nat × List Nat × List Nat)) : List Nat :=
  match r with
  | some t => t.1
  | none => []

/-- Second component (change ids) of an optional result triple. -/
def changeOf (r : Option (List Nat × List Nat × List Nat)) : List Nat :=
  match r with
  | some t => t.2.1
  | none => []

/-- Third component (delete ids) of an optional result triple. -/
def deleteOf (r : Option (List Nat × List Nat × List Nat)) : List Nat :=
  match r with
  | some t => t.2.2
  | none => []

/-! ### Publication in the root folder -/

/-- `PublishInRootFolderMixin.save`: before persisting, force
`is_published` when the object's folder is the root folder, the kind
has an `is_published` attribute, and it is not yet published. -/
def publishInRootFolderSave (env : Env) (kind : ObjectType) (o : Obj) : Obj :=
  if ((getRootFolder env.folders).map (fun g => g.id) == some o.folder)
      && kind.hasIsPublished && !o.is_published then
    { o with is_published := true }
  else o

/-! ### Domain provisioning -/

namespace UserGroupCodename

/-- Modelled from the spec: the builtin user group codenames
(`UserGroupCodename` in `core.utils`, outside `src/`); their exact
string values are opaque to the IAM logic. -/
def READER : String := "reader_group"

def APPROVER : String := "approver_group"

def ANALYST : String := "analyst_group"

def DOMAIN_MANAGER : String := "domain_manager_group"

end UserGroupCodename

namespace RoleCodename

/-- Modelled from the spec: the builtin role codenames
(`RoleCodename` in `core.utils`, outside `src/`); their exact string
values are opaque to the IAM logic. -/
def READER : String := "reader_role"

def APPROVER : String := "approver_role"

def ANALYST : String := "analyst_role"

def DOMAIN_MANAGER : String := "domain_manager_role"

end RoleCodename

/-- `Role.objects.get(name=...)`: the unique role with this name, or
`none` (exception) otherwise. -/
def objectsGetRole (roles : List Role) (name : String) : Option Role :=
  match roles.filter (fun r => r.name == name) with
  | [r] => some r
  | _ => none

/-- `Folder.create_default_ug_and_ra(folder)`: when the folder is a
DOMAIN, create the four builtin user groups scoped to it and the four
builtin role assignments (each created with the root folder as direct
`folder` attribute and `is_recursive=True`, then its perimeter set to
the new folder); otherwise do nothing.  Modelled from the spec: the
surrounding transaction (owned by the caller, outside `src/`) makes
the sequence all-or-nothing, so a mid-sequence failure — a missing
root folder or builtin role here — yields `none` and leaves the
state unchanged. -/
def create_default_ug_and_ra (env : Env) (folder : Folder) : Option Env :=
  if folder.content_type == ContentType.DOMAIN then do
    let readers : UserGroup :=
      { id := env.next_id, name := UserGroupCodename.READER,
        folder := folder.id, builtin := true }
    let approvers : UserGroup :=
      { id := env.next_id + 1, name := UserGroupCodename.APPROVER,
        folder := folder.id, builtin := true }
    let analysts : UserGroup :=
      { id := env.next_id + 2, name := UserGroupCodename.ANALYST,
        folder := folder.id, builtin := true }
    let managers : UserGroup :=
      { id := env.next_id + 3, name := UserGroupCodename.DOMAIN_MANAGER,
        folder := folder.id, builtin := true }
    let root ← getRootFolder env.folders
    let roleReader ← objectsGetRole env.roles RoleCodename.READER
    let ra1 : RoleAssignment :=
      { id := env.next_id + 4, user := none, user_group := some readers.id,
        role := roleReader, folder := root.id, perimeter_folders := [folder.id],
        is_recursive := true, builtin := true }
    let roleApprover ← objectsGetRole env.roles RoleCodename.APPROVER
    let ra2 : RoleAssignment :=
      { id := env.next_id + 5, user := none, user_group := some approvers.id,
        role := roleApprover, folder := root.id, perimeter_folders := [folder.id],
        is_recursive := true, builtin := true }
    let roleAnalyst ← objectsGetRole env.roles RoleCodename.ANALYST
    let ra3 : RoleAssignment :=
      { id := env.next_id + 6, user := none, user_group := some analysts.id,
        role := roleAnalyst, folder := root.id, perimeter_folders := [folder.id],
        is_recursive := true, builtin := true }
    let roleManager ← objectsGetRole env.roles RoleCodename.DOMAIN_MANAGER
    let ra4 : RoleAssignment :=
      { id := env.next_id + 7, user := none, user_group := some managers.id,
        role := roleManager, folder := root.id, perimeter_folders := [folder.id],
        is_recursive := true, builtin := true }
    some { env with
      user_groups := env.user_groups ++ [readers, approvers, analysts, managers],
      role_assignments := env.role_assignments ++ [ra1, ra2, ra3, ra4],
      next_id := env.next_id + 8 }
  else
    some env

/-- Replace every assignment's `is_recursive` flag according to `g`,
leaving all other columns and tables unchanged — used to state that a
computation never reads the flag. -/
def mapRecursive (g : RoleAssignment → Bool) (env : Env) : Env :=
  { env with
    role_assignments :=
      env.role_assignments.map (fun ra => { ra with is_recursive := g ra }) }

/-! ### Concrete data used by the witnesses -/

/-- The root folder of the witness world. -/
def rootW : Folder :=
  { id := 0, name := "root", content_type := ContentType.ROOT,
    parent_folder := none, builtin := true }

/-- A DOMAIN folder under the root. -/
def domainW : Folder :=
  { id := 1, name := "dom", content_type := ContentType.DOMAIN,
    parent_folder := some 0, builtin := false }

/-- A DOMAIN sub-folder of `domainW`. -/
def childW : Folder :=
  { id := 2, name := "sub", content_type := ContentType.DOMAIN,
    parent_folder := some 1, builtin := false }

/-- An ENCLAVE sub-folder of `domainW`. -/
def enclaveW : Folder :=
  { id := 3, name := "enc", content_type := ContentType.ENCLAVE,
    parent_folder := some 1, builtin := false }

/-- A role viewing folders and assets, and allowed to tag. -/
def roleViewW : Role :=
  { id := 1, name := "viewer",
    permissions := ["view_folder", "view_asset", "add_filteringlabel"] }

/-- A non-recursive assignment of `roleViewW` to user 7 over the
perimeter `{domainW}`. -/
def raW : RoleAssignment :=
  { id := 10, user := some 7, user_group := none, role := roleViewW,
    folder := 0, perimeter_folders := [1], is_recursive := false,
    builtin := false }

/-- User 7, member of no group. -/
def userW : User := { id := 7, user_groups := [] }

/-- The witness environment: a root, a domain with two children, one
role, one assignment. -/
def envW : Env :=
  { folders := [rootW, domainW, childW, enclaveW], roles := [roleViewW],
    role_assignments := [raW], user_groups := [], next_id := 20 }

/-- A publication-capable resource kind with a direct folder
attribute. -/
def kindAssetW : ObjectType :=
  { className := "asset", locator := FolderRef.direct, hasIsPublished := true }

/-- A published object living in `childW`. -/
def objChildW : Obj := { id := 55, folder := 2, is_published := true }

/-- A published object living in the root folder. -/
def objRootW : Obj := { id := 77, folder := 0, is_published := true }

/-- An unpublished object living in the root folder. -/
def objUnpubW : Obj := { id := 88, folder := 0, is_published := false }

/-- The builtin reader role of the provisioning witness. -/
def roleReaderProvW : Role :=
  { id := 31, name := RoleCodename.READER, permissions := ["view_folder"] }

/-- The builtin approver role of the provisioning witness. -/
def roleApproverProvW : Role :=
  { id := 32, name := RoleCodename.APPROVER,
    permissions := ["approve_requirementassessment"] }

/-- The builtin analyst role of the provisioning witness. -/
def roleAnalystProvW : Role :=
  { id := 33, name := RoleCodename.ANALYST, permissions := ["view_folder", "change_asset"] }

/-- The builtin domain manager role of the provisioning witness. -/
def roleManagerProvW : Role :=
  { id := 34, name := RoleCodename.DOMAIN_MANAGER,
    permissions := ["view_folder", "delete_folder"] }

/-- Builtin roles for the provisioning witness. -/
def rolesProvW : List Role :=
  [roleReaderProvW, roleApproverProvW, roleAnalystProvW, roleManagerProvW]

/-- Environment for the provisioning witness: a root, the builtin
roles, nothing else. -/
def envProvW : Env :=
  { folders := [rootW, domainW], roles := rolesProvW,
    role_assignments := [], user_groups := [], next_id := 100 }

end Iam

namespace Iam

/-! ## Helper lemmas -/

theorem any_eq_of_all_eq {α : Type} {l : List α} {p q : α → Bool}
    (h : ∀ x ∈ l, p x = q x) : l.any p = l.any q := by
  induction l with
  | nil => rfl
  | cons a t ih =>
      simp only [List.any_cons]
      rw [h a (by simp), ih (fun x hx => h x (by simp [hx]))]

/-- The ancestor loop of `is_access_allowed` is the search for a
perimeter hit along `folder :: get_parent_folders folder`. -/
theorem folderWalk_eq_any (folders : List Folder) (perim : List Nat)
    (perms : List String) (perm : String) :
    ∀ (fuel fid : Nat),
      folderWalk folders perim perms perm (fuel + 1) (some fid)
        = (fid :: get_parent_folders folders fuel fid).any
            (fun x => perim.contains x && perms.contains perm) := by
  intro fuel
  induction fuel with
  | zero =>
      intro fid
      simp only [folderWalk, get_parent_folders, List.any_cons, List.any_nil]
      cases h : parentOf folders fid with
      | none => simp [folderWalk]
      | some p => simp [folderWalk]
  | succ n ih =>
      intro fid
      simp only [folderWalk, get_parent_folders]
      cases h : parentOf folders fid with
      | none =>
          simp [folderWalk, List.any_cons]
      | some p =>
          simp only [List.any_cons]
          rw [show folderWalk folders perim perms perm (n + 1) (some p)
                = (p :: get_parent_folders folders n p).any
                    (fun x => perim.contains x && perms.contains perm) from ih p]
          cases hc : (perim.contains fid && perms.contains perm) <;> simp [List.any_cons]

/-- Filtering by principal commutes with rewriting the
`is_recursive` column. -/
theorem raSetOfUser_mapRec (g : RoleAssignment → Bool) (rs : List RoleAssignment) (uid : Nat) :
    raSetOfUser (rs.map (fun ra => { ra with is_recursive := g ra })) uid
      = (raSetOfUser rs uid).map (fun ra => { ra with is_recursive := g ra }) := by
  unfold raSetOfUser
  rw [List.filter_map]
  rfl

theorem raSetOfGroup_mapRec (g : RoleAssignment → Bool) (rs : List RoleAssignment) (gid : Nat) :
    raSetOfGroup (rs.map (fun ra => { ra with is_recursive := g ra })) gid
      = (raSetOfGroup rs gid).map (fun ra => { ra with is_recursive := g ra }) := by
  unfold raSetOfGroup
  rw [List.filter_map]
  rfl

/-- `get_role_assignments` commutes with rewriting every
`is_recursive` flag. -/
theorem get_role_assignments_mapRecursive (g : RoleAssignment → Bool) (env : Env)
    (principal : Principal) :
    get_role_assignments (mapRecursive g env) principal
      = (get_role_assignments env principal).map (fun ra => { ra with is_recursive := g ra }) := by
  have hfield : (mapRecursive g env).role_assignments
      = env.role_assignments.map (fun ra => { ra with is_recursive := g ra }) := rfl
  cases principal with
  | user u =>
      simp only [get_role_assignments, hfield, raSetOfUser_mapRec, raSetOfGroup_mapRec,
        List.map_append, List.map_flatMap]
  | group gid =>
      simp only [get_role_assignments, hfield, raSetOfGroup_mapRec, List.map_append]

/-- `is_access_allowed` never reads the `is_recursive` flags. -/
theorem is_access_allowed_mapRecursive (g : RoleAssignment → Bool) (env : Env)
    (fuel : Nat) (user : Principal) (perm : String) (folder : Nat) :
    is_access_allowed (mapRecursive g env) fuel user perm folder
      = is_access_allowed env fuel user perm folder := by
  unfold is_access_allowed is_access_allowed_over
  rw [show (mapRecursive g env).folders = env.folders from rfl]
  rw [get_role_assignments_mapRecursive, List.any_map]
  rfl

end Iam

namespace Iam

/-- C1: if some assignment of principal P carries token T (T other
than the add_tag token) in its role's permission set and a folder F of
its perimeter equals f or is an ancestor of f, then
`is_access_allowed(P, T, f)` is true, and the answer does not change
under any rewriting of the `is_recursive` flags — the single-decision
evaluator never reads `is_recursive`. -/
theorem C1_ancestor_grant_ignores_recursive
    (env : Env) (fuel : Nat) (user : Principal) (perm : String) (fid F : Nat)
    (ra : RoleAssignment)
    (hra : ra ∈ get_role_assignments env user)
    (hperm : perm ∈ ra.role.permissions)
    (hne : perm ≠ add_tag_permission)
    (hF : F ∈ ra.perimeter_folders)
    (hanc : F ∈ fid :: get_parent_folders env.folders fuel fid) :
    is_access_allowed env (fuel + 1) user perm fid = true
      ∧ ∀ g : RoleAssignment → Bool,
          is_access_allowed (mapRecursive g env) (fuel + 1) user perm fid = true := by
  have hmain : is_access_allowed env (fuel + 1) user perm fid = true := by
    unfold is_access_allowed is_access_allowed_over
    refine List.any_eq_true.mpr ⟨ra, hra, ?_⟩
    have hw : folderWalk env.folders ra.perimeter_folders ra.role.permissions perm
        (fuel + 1) (some fid) = true := by
      rw [folderWalk_eq_any]
      refine List.any_eq_true.mpr ⟨F, hanc, ?_⟩
      rw [Bool.and_eq_true]
      exact ⟨List.elem_iff.mpr hF, List.elem_iff.mpr hperm⟩
    simp [hw]
  exact ⟨hmain, fun g => by rw [is_access_allowed_mapRecursive]; exact hmain⟩

/-- Witness for C1: in the concrete world, user 7 holds `view_asset`
over perimeter `{folder 1}` and folder 1 is the parent of folder 2,
so access to folder 2 is granted. -/
theorem C1_ancestor_grant_ignores_recursive_witness :
    is_access_allowed envW 2 (Principal.user userW) "view_asset" 2 = true :=
  (C1_ancestor_grant_ignores_recursive envW 1 (Principal.user userW) "view_asset" 2 1 raW
    (by decide) (by decide) (by decide) (by decide) (by decide)).1

/-- C5: whenever at least one assignment of the principal carries the
add_tag token, `is_access_allowed(P, add_tag, f)` is true for every
folder f, perimeter-independently; and for every other token the
decision is exactly the perimeter walk — the escape hatch applies to
the add_tag token only. -/
theorem C5_add_tag_escape_hatch (env : Env) (fuel : Nat) (user : Principal)
    (ra : RoleAssignment) (f : Nat)
    (hra : ra ∈ get_role_assignments env user)
    (hperm : add_tag_permission ∈ ra.role.permissions) :
    is_access_allowed env fuel user add_tag_permission f = true
      ∧ ∀ perm2 : String, perm2 ≠ add_tag_permission →
          is_access_allowed env fuel user perm2 f
            = (get_role_assignments env user).any (fun ra2 =>
                folderWalk env.folders ra2.perimeter_folders ra2.role.permissions
                  perm2 fuel (some f)) := by
  constructor
  · unfold is_access_allowed is_access_allowed_over
    refine List.any_eq_true.mpr ⟨ra, hra, ?_⟩
    have h2 : ra.role.permissions.contains add_tag_permission = true :=
      List.elem_iff.mpr hperm
    simp only [beq_self_eq_true, h2, Bool.true_and, Bool.true_or]
  · intro perm2 hne
    unfold is_access_allowed is_access_allowed_over
    apply any_eq_of_all_eq
    intro ra2 _
    have hfa : (perm2 == add_tag_permission) = false := beq_eq_false_iff_ne.mpr hne
    simp [hfa]

/-- Witness for C5: user 7 may tag in the unrelated folder 999 that is
in no perimeter at all, even with no walk fuel. -/
theorem C5_add_tag_escape_hatch_witness :
    is_access_allowed envW 0 (Principal.user userW) add_tag_permission 999 = true :=
  (C5_add_tag_escape_hatch envW 0 (Principal.user userW) raW 999
    (by decide) (by decide)).1

end Iam

namespace Iam

/-- Counterexample to C4 as stated: user 7 has one direct assignment
and `get_role_assignments` appends the direct assignments both first
and last, so the returned list is not deduplicated. -/
theorem C4_counterexample_not_dedup :
    ¬ (get_role_assignments envW (Principal.user userW)).Nodup := by decide

/-- C4 amended: `get_role_assignments` returns, as a set, the union of
the principal's own role assignments and (for a user) those of every
group it belongs to — but the list is not deduplicated: the direct
assignments are appended both at the start and at the end, so every
direct assignment occurs at least twice. -/
theorem C4_role_assignments_union (env : Env) (u : User) (gid : Nat)
    (ra : RoleAssignment) :
    (ra ∈ get_role_assignments env (Principal.user u) ↔
        ra ∈ raSetOfUser env.role_assignments u.id
          ∨ ∃ gg ∈ u.user_groups, ra ∈ raSetOfGroup env.role_assignments gg)
      ∧ (ra ∈ get_role_assignments env (Principal.group gid) ↔
          ra ∈ raSetOfGroup env.role_assignments gid)
      ∧ (ra ∈ raSetOfUser env.role_assignments u.id →
          2 ≤ (get_role_assignments env (Principal.user u)).count ra) := by
  refine ⟨?_, ?_, ?_⟩
  · constructor
    · intro h
      rcases List.mem_append.mp h with h1 | h2
      · rcases List.mem_append.mp h1 with h3 | h4
        · exact Or.inl h3
        · exact Or.inr (List.mem_flatMap.mp h4)
      · exact Or.inl h2
    · intro h
      rcases h with h | ⟨gg, hgg, hra⟩
      · exact List.mem_append.mpr (Or.inr h)
      · exact List.mem_append.mpr
          (Or.inl (List.mem_append.mpr (Or.inr (List.mem_flatMap.mpr ⟨gg, hgg, hra⟩))))
  · show ra ∈ raSetOfGroup env.role_assignments gid ++ raSetOfGroup env.role_assignments gid ↔ _
    simp [List.mem_append]
  · intro h
    have h1 : 0 < (raSetOfUser env.role_assignments u.id).count ra :=
      List.count_pos_iff.mpr h
    show 2 ≤ ((raSetOfUser env.role_assignments u.id
        ++ u.user_groups.flatMap (fun gg => raSetOfGroup env.role_assignments gg))
        ++ raSetOfUser env.role_assignments u.id).count ra
    rw [List.count_append, List.count_append]
    omega

/-- Witness for C4 (amended): the concrete direct assignment of user 7
is counted twice. -/
theorem C4_role_assignments_union_witness :
    2 ≤ (get_role_assignments envW (Principal.user userW)).count raW :=
  (C4_role_assignments_union envW userW 0 raW).2.2 (by decide)

/-- C9: `is_access_allowed` and `get_permissions` depend only on the
set of the principal's role assignments, not on multiplicities in the
list `get_role_assignments` returns; in particular dropping the
duplicated trailing copy of the direct assignments changes no access
decision and no key of the permission mapping. -/
theorem C9_decisions_ignore_multiplicity (folders : List Folder) (fuel : Nat)
    (perm : String) (fid : Nat) (env : Env) (u : User) :
    (∀ ras₁ ras₂ : List RoleAssignment, (∀ ra, ra ∈ ras₁ ↔ ra ∈ ras₂) →
        is_access_allowed_over folders fuel ras₁ perm fid
            = is_access_allowed_over folders fuel ras₂ perm fid
          ∧ ∀ p, p ∈ get_permissions_over ras₁ ↔ p ∈ get_permissions_over ras₂)
      ∧ is_access_allowed env fuel (Principal.user u) perm fid
          = is_access_allowed_over env.folders fuel
              (raSetOfUser env.role_assignments u.id
                ++ u.user_groups.flatMap (fun gg => raSetOfGroup env.role_assignments gg))
              perm fid
      ∧ ∀ p, p ∈ get_permissions env (Principal.user u) ↔
          p ∈ get_permissions_over
              (raSetOfUser env.role_assignments u.id
                ++ u.user_groups.flatMap (fun gg => raSetOfGroup env.role_assignments gg)) := by
  have hgen : ∀ (fs : List Folder) (ras₁ ras₂ : List RoleAssignment),
      (∀ ra, ra ∈ ras₁ ↔ ra ∈ ras₂) →
      is_access_allowed_over fs fuel ras₁ perm fid
          = is_access_allowed_over fs fuel ras₂ perm fid
        ∧ ∀ p, p ∈ get_permissions_over ras₁ ↔ p ∈ get_permissions_over ras₂ := by
    intro fs ras₁ ras₂ hset
    constructor
    · unfold is_access_allowed_over
      rw [Bool.eq_iff_iff]
      simp only [List.any_eq_true]
      constructor
      · rintro ⟨ra, hm, hp⟩; exact ⟨ra, (hset ra).mp hm, hp⟩
      · rintro ⟨ra, hm, hp⟩; exact ⟨ra, (hset ra).mpr hm, hp⟩
    · intro p
      unfold get_permissions_over
      simp only [List.mem_flatMap]
      constructor
      · rintro ⟨ra, hm, hp⟩; exact ⟨ra, (hset ra).mp hm, hp⟩
      · rintro ⟨ra, hm, hp⟩; exact ⟨ra, (hset ra).mpr hm, hp⟩
  have hmem : ∀ ra, ra ∈ get_role_assignments env (Principal.user u) ↔
      ra ∈ raSetOfUser env.role_assignments u.id
        ++ u.user_groups.flatMap (fun gg => raSetOfGroup env.role_assignments gg) := by
    intro ra
    show ra ∈ (raSetOfUser env.role_assignments u.id
        ++ u.user_groups.flatMap (fun gg => raSetOfGroup env.role_assignments gg))
        ++ raSetOfUser env.role_assignments u.id ↔ _
    simp only [List.mem_append]
    tauto
  exact ⟨fun ras₁ ras₂ h => hgen folders ras₁ ras₂ h,
    (hgen env.folders _ _ hmem).1,
    (hgen env.folders _ _ hmem).2⟩

/-- Witness for C9: removing the duplicate copy of the direct
assignment of user 7 leaves the concrete access decision unchanged. -/
theorem C9_decisions_ignore_multiplicity_witness :
    is_access_allowed_over envW.folders 2 [raW, raW] "view_asset" 2
      = is_access_allowed_over envW.folders 2 [raW] "view_asset" 2 :=
  ((C9_decisions_ignore_multiplicity envW.folders 2 "view_asset" 2 envW userW).1
    [raW, raW] [raW] (fun ra => by simp)).1

end Iam

namespace Iam

/-- Under a rank function witnessing acyclicity, one parent step
strictly decreases the rank. -/
theorem rank_lt_of_parentOf (folders : List Folder) (rank : Nat → Nat)
    (hrank : ∀ g ∈ folders, ∀ p, g.parent_folder = some p → rank p < rank g.id)
    (fid p : Nat) (h : parentOf folders fid = some p) : rank p < rank fid := by
  unfold parentOf findFolder at h
  cases hf : folders.find? (fun g => g.id == fid) with
  | none => rw [hf] at h; cases h
  | some g =>
      rw [hf] at h
      have hmem : g ∈ folders := List.mem_of_find?_eq_some hf
      have hid : g.id = fid := by
        have := List.find?_some hf
        simpa using this
      exact hid ▸ hrank g hmem p h

/-- Every member of the parent chain has strictly smaller rank. -/
theorem rank_lt_of_mem_parent_chain (folders : List Folder) (rank : Nat → Nat)
    (hrank : ∀ g ∈ folders, ∀ p, g.parent_folder = some p → rank p < rank g.id) :
    ∀ (fuel fid a : Nat), a ∈ get_parent_folders folders fuel fid → rank a < rank fid := by
  intro fuel
  induction fuel with
  | zero => intro fid a ha; cases ha
  | succ n ih =>
      intro fid a ha
      unfold get_parent_folders at ha
      cases hp : parentOf folders fid with
      | none => rw [hp] at ha; cases ha
      | some p =>
          rw [hp] at ha
          have hlt : rank p < rank fid := rank_lt_of_parentOf folders rank hrank fid p hp
          rcases List.mem_cons.mp ha with h | h
          · subst h; omega
          · have := ih p a h
            omega

/-- The parent chain stabilizes: any fuel of at least `rank fid`
computes the same chain. -/
theorem get_parent_folders_stab (folders : List Folder) (rank : Nat → Nat)
    (hrank : ∀ g ∈ folders, ∀ p, g.parent_folder = some p → rank p < rank g.id) :
    ∀ (fuel fid n : Nat), rank fid ≤ n → n ≤ fuel →
      get_parent_folders folders n fid = get_parent_folders folders (rank fid) fid := by
  intro fuel
  induction fuel with
  | zero =>
      intro fid n h1 h2
      have hn : n = 0 := Nat.le_zero.mp h2
      have hr : rank fid = 0 := by omega
      rw [hn, hr]
  | succ m ih =>
      intro fid n h1 h2
      by_cases hc : n ≤ m
      · exact ih fid n h1 hc
      · have hn : n = m + 1 := by omega
        subst hn
        cases hp : parentOf folders fid with
        | none =>
            cases hr : rank fid with
            | zero => simp [get_parent_folders, hp]
            | succ k => simp [get_parent_folders, hp]
        | some p =>
            have hlt : rank p < rank fid := rank_lt_of_parentOf folders rank hrank fid p hp
            obtain ⟨k, hk⟩ : ∃ k, rank fid = k + 1 := ⟨rank fid - 1, by omega⟩
            rw [hk]
            show get_parent_folders folders (m + 1) fid
              = get_parent_folders folders (k + 1) fid
            simp only [get_parent_folders, hp]
            have e1 : get_parent_folders folders m p = get_parent_folders folders (rank p) p :=
              ih p m (by omega) (by omega)
            have e2 : get_parent_folders folders k p = get_parent_folders folders (rank p) p :=
              ih p k (by omega) (by omega)
            rw [e1, e2]

/-- C10: under the tree invariant — witnessed by a rank function that
strictly decreases along parent links — the ancestor walks terminate:
both `get_parent_folders` and the inner while-loop of
`is_access_allowed` compute fuel-independent results once the fuel
reaches the rank of the start folder, i.e. the walk reaches a folder
with no parent after at most `rank fid` steps. -/
theorem C10_ancestor_walks_terminate (folders : List Folder) (rank : Nat → Nat)
    (hrank : ∀ g ∈ folders, ∀ p, g.parent_folder = some p → rank p < rank g.id)
    (fid : Nat) :
    (∀ fuel, rank fid ≤ fuel →
        get_parent_folders folders fuel fid = get_parent_folders folders (rank fid) fid)
      ∧ ∀ (perim : List Nat) (perms : List String) (perm : String) (fuel : Nat),
          rank fid ≤ fuel →
          folderWalk folders perim perms perm (fuel + 1) (some fid)
            = folderWalk folders perim perms perm (rank fid + 1) (some fid) := by
  constructor
  · intro fuel h
    exact get_parent_folders_stab folders rank hrank fuel fid fuel h (le_refl fuel)
  · intro perim perms perm fuel h
    rw [folderWalk_eq_any, folderWalk_eq_any,
      get_parent_folders_stab folders rank hrank fuel fid fuel h (le_refl fuel)]

/-- Witness for C10: in the concrete world (where a folder's id is a
valid rank), the parent chain of folder 2 is the same with fuel 9 as
with fuel 2, and likewise the access walk. -/
theorem C10_ancestor_walks_terminate_witness :
    get_parent_folders envW.folders 9 2 = get_parent_folders envW.folders 2 2 :=
  (C10_ancestor_walks_terminate envW.folders (fun n => n)
    (by
      intro g hg p hp
      simp only [envW, rootW, domainW, childW, enclaveW, List.mem_cons,
        List.not_mem_nil, or_false] at hg
      rcases hg with h | h | h | h <;> subst h <;> simp_all <;> omega) 2).1 9 (by decide)

end Iam

namespace Iam

/-- C6: `get_accessible_folders` is, as a set, the intersection of
(a) the folders gathered from every assignment of the user whose role
contains both `view_folder` and the requested codename — each
perimeter folder together with all its descendants, unconditionally —
and (b) the scope `{folder} ∪ descendants(folder)`, restricted to the
requested content type when one is given; and the result never reads
the `is_recursive` flags. -/
theorem C6_accessible_folders_characterization (env : Env) (fuel : Nat) (folder : Nat)
    (user : Principal) (ct : Option ContentType) (codename : String) (x : Nat) :
    (x ∈ get_accessible_folders env fuel folder user ct codename ↔
        (∃ ra ∈ get_role_assignments env user,
            "view_folder" ∈ ra.role.permissions ∧ codename ∈ ra.role.permissions
              ∧ ∃ pf ∈ ra.perimeter_folders,
                  x = pf ∨ x ∈ get_sub_folders env.folders fuel pf)
          ∧ (x = folder ∨ x ∈ get_sub_folders env.folders fuel folder)
          ∧ contentTypeOk env.folders ct x = true)
      ∧ ∀ g : RoleAssignment → Bool,
          get_accessible_folders (mapRecursive g env) fuel folder user ct codename
            = get_accessible_folders env fuel folder user ct codename := by
  constructor
  · unfold get_accessible_folders
    simp only [List.mem_filter, List.mem_flatMap, List.mem_cons, Bool.and_eq_true,
      List.elem_iff]
    aesop
  · intro g
    have hfield : (mapRecursive g env).folders = env.folders := rfl
    unfold get_accessible_folders
    rw [hfield, get_role_assignments_mapRecursive, List.filter_map, List.flatMap_map]
    rfl

end Iam

namespace Iam

theorem mem_if_nil {α : Type} {x : α} (b : Bool) (l : List α) :
    x ∈ (if b then l else []) ↔ b = true ∧ x ∈ l := by
  cases b <;> simp

/-- Explicit success form of `get_accessible_object_ids` when the
unsupported-kind error does not fire. -/
theorem get_accessible_object_ids_some (env : Env) (fuel : Nat) (folder : Nat)
    (user : Principal) (kind : ObjectType) (objs : List Obj)
    (hguard : (kind.locator == FolderRef.unsupported
        && !(grantKeys env fuel folder user kind.className).isEmpty) = false) :
    get_accessible_object_ids env fuel folder user kind objs
      = some
        ((grantKeys env fuel folder user kind.className).flatMap (fun f =>
            if (folderGrants env fuel folder user kind.className f).contains
                ("view_" ++ kind.className) then
              (objectsLocatedIn kind objs f).getD [] else [])
          ++ (if kind.hasIsPublished && kind.locator == FolderRef.direct then
                ((grantKeys env fuel folder user kind.className).filter (fun f =>
                    (folderGrants env fuel folder user kind.className f).contains
                      ("view_" ++ kind.className))).flatMap (fun f =>
                  if contentOf env.folders f != some ContentType.ENCLAVE then
                    (get_parent_folders env.folders fuel f).flatMap (fun a =>
                      (objs.filter (fun o => o.folder == a && o.is_published)).map
                        (fun o => o.id))
                  else [])
              else []),
          (grantKeys env fuel folder user kind.className).flatMap (fun f =>
            if (folderGrants env fuel folder user kind.className f).contains
                ("change_" ++ kind.className) then
              (objectsLocatedIn kind objs f).getD [] else []),
          (grantKeys env fuel folder user kind.className).flatMap (fun f =>
            if (folderGrants env fuel folder user kind.className f).contains
                ("delete_" ++ kind.className) then
              (objectsLocatedIn kind objs f).getD [] else [])) := by
  unfold get_accessible_object_ids
  simp only [hguard, Bool.false_eq_true, if_false]

end Iam

namespace Iam

/-- For a non-folder kind, an id in the per-folder object query comes
from an object of the table resolved to that folder. -/
theorem mem_objectsLocatedIn (kind : ObjectType) (objs : List Obj) (f x : Nat)
    (hk : kind.locator ≠ FolderRef.isFolder)
    (hx : x ∈ (objectsLocatedIn kind objs f).getD []) :
    ∃ o2 ∈ objs, o2.folder = f ∧ o2.id = x := by
  cases hcl : kind.locator <;> rw [objectsLocatedIn, hcl] at hx
  case isFolder => exact absurd hcl hk
  case unsupported => simp at hx
  all_goals
    simp only [Option.getD_some, List.mem_map, List.mem_filter] at hx
    obtain ⟨o2, ⟨h1, h2⟩, h3⟩ := hx
    exact ⟨o2, h1, by simpa using h2, h3⟩

/-- When every view-capable assignment of the user is non-recursive
with perimeter contained in {F}, every folder with a recorded grant
is F itself. -/
theorem grantKeys_eq_F (env : Env) (fuel : Nat) (folder F : Nat) (user : Principal)
    (className : String)
    (hview : ∀ ra ∈ get_role_assignments env user,
        "view_folder" ∈ ra.role.permissions →
          ra.is_recursive = false ∧ ∀ pf ∈ ra.perimeter_folders, pf = F) :
    ∀ f ∈ grantKeys env fuel folder user className, f = F := by
  intro f hf
  have h2 := (List.mem_filter.mp hf).2
  have h3 : folderGrants env fuel folder user className f ≠ [] := by
    simpa using h2
  obtain ⟨p, hp⟩ := List.exists_mem_of_ne_nil _ h3
  rw [folderGrants] at hp
  obtain ⟨ra, hra, hpra⟩ := List.mem_flatMap.mp hp
  obtain ⟨hc, -⟩ := (mem_if_nil _ _).mp hpra
  rw [Bool.and_eq_true] at hc
  have hmem : f ∈ raPerimeterExp env.folders fuel ra := List.elem_iff.mp hc.2
  rw [viewFolderAssignments] at hra
  have hra2 := List.mem_filter.mp hra
  have hv := hview ra hra2.1 (List.elem_iff.mp hra2.2)
  rw [raPerimeterExp, hv.1] at hmem
  simp only [Bool.false_eq_true, if_false] at hmem
  exact hv.2 f hmem

/-- C2: when every view-capable assignment of the user is
non-recursive with perimeter {F}, no object resolved to a strict
descendant of F reaches any of the three sets that
`get_accessible_object_ids` returns, even though `is_access_allowed`
does grant the view token on that descendant. -/
theorem C2_accessible_objects_honor_recursive_flag
    (env : Env) (fuel fuelD fuelA : Nat) (folder F : Nat) (user : Principal)
    (kind : ObjectType) (objs : List Obj) (o : Obj) (rank : Nat → Nat)
    (hrank : ∀ g ∈ env.folders, ∀ p, g.parent_folder = some p → rank p < rank g.id)
    (hview : ∀ ra ∈ get_role_assignments env user,
        "view_folder" ∈ ra.role.permissions →
          ra.is_recursive = false ∧ ∀ pf ∈ ra.perimeter_folders, pf = F)
    (hdesc : F ∈ get_parent_folders env.folders fuelD o.folder)
    (hids : ∀ o2 ∈ objs, o2.id = o.id → o2.folder = o.folder)
    (hkind : kind.locator ≠ FolderRef.isFolder)
    (hallowed : is_access_allowed env fuelA user ("view_" ++ kind.className) o.folder
      = true) :
    o.id ∉ viewOf (get_accessible_object_ids env fuel folder user kind objs)
      ∧ o.id ∉ changeOf (get_accessible_object_ids env fuel folder user kind objs)
      ∧ o.id ∉ deleteOf (get_accessible_object_ids env fuel folder user kind objs) := by
  have hkeyF := grantKeys_eq_F env fuel folder F user kind.className hview
  have hrankF : rank F < rank o.folder :=
    rank_lt_of_mem_parent_chain env.folders rank hrank fuelD o.folder F hdesc
  have hbase : ∀ f ∈ grantKeys env fuel folder user kind.className,
      o.id ∉ (objectsLocatedIn kind objs f).getD [] := by
    intro f hf hin
    obtain ⟨o2, ho2m, ho2f, ho2id⟩ := mem_objectsLocatedIn kind objs f o.id hkind hin
    have h4 : o2.folder = o.folder := hids o2 ho2m ho2id
    have hFo : F = o.folder := by rw [← hkeyF f hf, ← ho2f, h4]
    rw [hFo] at hrankF
    exact absurd hrankF (lt_irrefl _)
  by_cases hg : (kind.locator == FolderRef.unsupported
      && !(grantKeys env fuel folder user kind.className).isEmpty) = true
  · have hnone : get_accessible_object_ids env fuel folder user kind objs = none := by
      unfold get_accessible_object_ids
      simp only [hg, if_true]
    rw [hnone]
    simp [viewOf, changeOf, deleteOf]
  · have hguard : (kind.locator == FolderRef.unsupported
        && !(grantKeys env fuel folder user kind.className).isEmpty) = false := by
      simpa using hg
    rw [get_accessible_object_ids_some env fuel folder user kind objs hguard]
    refine ⟨?_, ?_, ?_⟩
    · intro hmem
      simp only [viewOf] at hmem
      rcases List.mem_append.mp hmem with hml | hmr
      · obtain ⟨f, hf, hin⟩ := List.mem_flatMap.mp hml
        obtain ⟨-, hin2⟩ := (mem_if_nil _ _).mp hin
        exact hbase f hf hin2
      · obtain ⟨-, hov⟩ := (mem_if_nil _ _).mp hmr
        obtain ⟨f, hff, hin⟩ := List.mem_flatMap.mp hov
        obtain ⟨-, hin2⟩ := (mem_if_nil _ _).mp hin
        obtain ⟨a, ha, hin3⟩ := List.mem_flatMap.mp hin2
        simp only [List.mem_map, List.mem_filter] at hin3
        obtain ⟨o2, ⟨ho2m, ho2fa⟩, ho2id⟩ := hin3
        have hfF : f = F := hkeyF f (List.mem_filter.mp hff).1
        subst hfF
        have h4 : o2.folder = o.folder := hids o2 ho2m ho2id
        have ho2a : o2.folder = a ∧ o2.is_published = true := by simpa using ho2fa
        have halt : rank a < rank f :=
          rank_lt_of_mem_parent_chain env.folders rank hrank fuel f a ha
        have hao : a = o.folder := by rw [← ho2a.1, h4]
        rw [hao] at halt
        exact absurd (lt_trans halt hrankF) (lt_irrefl _)
    · intro hmem
      simp only [changeOf] at hmem
      obtain ⟨f, hf, hin⟩ := List.mem_flatMap.mp hmem
      obtain ⟨-, hin2⟩ := (mem_if_nil _ _).mp hin
      exact hbase f hf hin2
    · intro hmem
      simp only [deleteOf] at hmem
      obtain ⟨f, hf, hin⟩ := List.mem_flatMap.mp hmem
      obtain ⟨-, hin2⟩ := (mem_if_nil _ _).mp hin
      exact hbase f hf hin2

end Iam

namespace Iam

/-- Witness for C2: with the single non-recursive view assignment on
folder 1, the published object 55 living in the sub-folder 2 is in
none of the three sets, although the single-decision evaluator allows
viewing folder 2. -/
theorem C2_accessible_objects_honor_recursive_flag_witness :
    objChildW.id ∉ viewOf (get_accessible_object_ids envW 5 0 (Principal.user userW)
        kindAssetW [objChildW])
      ∧ objChildW.id ∉ changeOf (get_accessible_object_ids envW 5 0 (Principal.user userW)
          kindAssetW [objChildW])
      ∧ objChildW.id ∉ deleteOf (get_accessible_object_ids envW 5 0 (Principal.user userW)
          kindAssetW [objChildW]) :=
  C2_accessible_objects_honor_recursive_flag envW 5 2 2 0 1 (Principal.user userW)
    kindAssetW [objChildW] objChildW (fun n => n)
    (by
      intro g hg p hp
      simp only [envW, rootW, domainW, childW, enclaveW, List.mem_cons,
        List.not_mem_nil, or_false] at hg
      rcases hg with h | h | h | h <;> subst h <;> simp_all <;> omega)
    (by decide) (by decide) (by decide) (by decide) (by decide)

/-- Positive direction of the publication overlay: a published object
located in an ancestor of a non-enclave folder with a local view grant
lands in the view set. -/
theorem mem_viewOf_of_published_ancestor (env : Env) (fuel : Nat) (folder : Nat)
    (user : Principal) (kind : ObjectType) (objs : List Obj) (x : Nat)
    (hpub : kind.hasIsPublished = true) (hloc : kind.locator = FolderRef.direct)
    (f : Nat) (hf : f ∈ grantKeys env fuel folder user kind.className)
    (hgr : ("view_" ++ kind.className) ∈ folderGrants env fuel folder user kind.className f)
    (hct : contentOf env.folders f ≠ some ContentType.ENCLAVE)
    (o2 : Obj) (ho2 : o2 ∈ objs) (ha : o2.folder ∈ get_parent_folders env.folders fuel f)
    (hp : o2.is_published = true) (hid : o2.id = x) :
    x ∈ viewOf (get_accessible_object_ids env fuel folder user kind objs) := by
  have hguard : (kind.locator == FolderRef.unsupported
      && !(grantKeys env fuel folder user kind.className).isEmpty) = false := by
    rw [hloc]
    rfl
  rw [get_accessible_object_ids_some env fuel folder user kind objs hguard]
  simp only [viewOf]
  refine List.mem_append.mpr (Or.inr ?_)
  rw [if_pos (by simp [hpub, hloc])]
  refine List.mem_flatMap.mpr ⟨f, List.mem_filter.mpr ⟨hf, List.elem_iff.mpr hgr⟩, ?_⟩
  rw [if_pos (by simpa [bne_iff_ne] using hct)]
  refine List.mem_flatMap.mpr ⟨o2.folder, ha, ?_⟩
  refine List.mem_map.mpr ⟨o2, List.mem_filter.mpr ⟨ho2, ?_⟩, hid⟩
  simp [hp]

/-- C3: for a kind with a publication flag and a direct folder
attribute, the view set is exactly the locally granted objects plus
the published objects located in ancestors of non-ENCLAVE folders
with a local view grant; the change and delete sets receive no
publication overlay at all. -/
theorem C3_publication_overlay (env : Env) (fuel : Nat) (folder : Nat) (user : Principal)
    (kind : ObjectType) (objs : List Obj)
    (hpub : kind.hasIsPublished = true)
    (hloc : kind.locator = FolderRef.direct) :
    (get_accessible_object_ids env fuel folder user kind objs).isSome = true
      ∧ (∀ x, x ∈ viewOf (get_accessible_object_ids env fuel folder user kind objs) ↔
          (∃ f ∈ grantKeys env fuel folder user kind.className,
              ("view_" ++ kind.className) ∈ folderGrants env fuel folder user kind.className f
                ∧ x ∈ (objectsLocatedIn kind objs f).getD [])
            ∨ ∃ f ∈ grantKeys env fuel folder user kind.className,
                ("view_" ++ kind.className)
                    ∈ folderGrants env fuel folder user kind.className f
                  ∧ contentOf env.folders f ≠ some ContentType.ENCLAVE
                  ∧ ∃ o2 ∈ objs, o2.folder ∈ get_parent_folders env.folders fuel f
                      ∧ o2.is_published = true ∧ o2.id = x)
      ∧ (∀ x, x ∈ changeOf (get_accessible_object_ids env fuel folder user kind objs) ↔
          ∃ f ∈ grantKeys env fuel folder user kind.className,
            ("change_" ++ kind.className) ∈ folderGrants env fuel folder user kind.className f
              ∧ x ∈ (objectsLocatedIn kind objs f).getD [])
      ∧ (∀ x, x ∈ deleteOf (get_accessible_object_ids env fuel folder user kind objs) ↔
          ∃ f ∈ grantKeys env fuel folder user kind.className,
            ("delete_" ++ kind.className) ∈ folderGrants env fuel folder user kind.className f
              ∧ x ∈ (objectsLocatedIn kind objs f).getD []) := by
  have hguard : (kind.locator == FolderRef.unsupported
      && !(grantKeys env fuel folder user kind.className).isEmpty) = false := by
    rw [hloc]
    rfl
  have hs := get_accessible_object_ids_some env fuel folder user kind objs hguard
  refine ⟨by rw [hs]; rfl, ?_, ?_, ?_⟩
  · intro x
    constructor
    · intro hmem
      rw [hs] at hmem
      simp only [viewOf] at hmem
      rcases List.mem_append.mp hmem with hml | hmr
      · obtain ⟨f, hf, hin⟩ := List.mem_flatMap.mp hml
        obtain ⟨hcond, hin2⟩ := (mem_if_nil _ _).mp hin
        exact Or.inl ⟨f, hf, List.elem_iff.mp hcond, hin2⟩
      · obtain ⟨hcond0, hov⟩ := (mem_if_nil _ _).mp hmr
        obtain ⟨f, hff, hin⟩ := List.mem_flatMap.mp hov
        obtain ⟨hcf, hin2⟩ := (mem_if_nil _ _).mp hin
        obtain ⟨a, ha, hin3⟩ := List.mem_flatMap.mp hin2
        obtain ⟨o2, ho2, ho2id⟩ := List.mem_map.mp hin3
        obtain ⟨ho2m, ho2c⟩ := List.mem_filter.mp ho2
        obtain ⟨hfk, hfv⟩ := List.mem_filter.mp hff
        have hc2 : o2.folder = a ∧ o2.is_published = true := by simpa using ho2c
        refine Or.inr ⟨f, hfk, List.elem_iff.mp hfv, ?_, o2, ho2m, ?_, hc2.2, ho2id⟩
        · simpa [bne_iff_ne] using hcf
        · rw [hc2.1]; exact ha
    · intro hx
      rcases hx with ⟨f, hf, hgr, hin⟩ | ⟨f, hf, hgr, hct, o2, ho2, ha, hp, hid⟩
      · rw [hs]
        simp only [viewOf]
        exact List.mem_append.mpr (Or.inl (List.mem_flatMap.mpr
          ⟨f, hf, (mem_if_nil _ _).mpr ⟨List.elem_iff.mpr hgr, hin⟩⟩))
      · exact mem_viewOf_of_published_ancestor env fuel folder user kind objs x hpub hloc
          f hf hgr hct o2 ho2 ha hp hid
  · intro x
    rw [hs]
    simp only [changeOf]
    constructor
    · intro hmem
      obtain ⟨f, hf, hin⟩ := List.mem_flatMap.mp hmem
      obtain ⟨hcond, hin2⟩ := (mem_if_nil _ _).mp hin
      exact ⟨f, hf, List.elem_iff.mp hcond, hin2⟩
    · rintro ⟨f, hf, hgr, hin⟩
      exact List.mem_flatMap.mpr ⟨f, hf, (mem_if_nil _ _).mpr ⟨List.elem_iff.mpr hgr, hin⟩⟩
  · intro x
    rw [hs]
    simp only [deleteOf]
    constructor
    · intro hmem
      obtain ⟨f, hf, hin⟩ := List.mem_flatMap.mp hmem
      obtain ⟨hcond, hin2⟩ := (mem_if_nil _ _).mp hin
      exact ⟨f, hf, List.elem_iff.mp hcond, hin2⟩
    · rintro ⟨f, hf, hgr, hin⟩
      exact List.mem_flatMap.mpr ⟨f, hf, (mem_if_nil _ _).mpr ⟨List.elem_iff.mpr hgr, hin⟩⟩

/-- Witness for C3: the published root object 77 is visible through
the overlay from the local view grant on the non-enclave folder 1. -/
theorem C3_publication_overlay_witness :
    (77 : Nat) ∈ viewOf (get_accessible_object_ids envW 3 0 (Principal.user userW)
      kindAssetW [objRootW]) :=
  ((C3_publication_overlay envW 3 0 (Principal.user userW) kindAssetW [objRootW]
      rfl rfl).2.1 77).mpr
    (Or.inr ⟨1, by decide, by decide, by decide, objRootW, by decide, by decide,
      by decide, by decide⟩)

end Iam

namespace Iam

/-- Saving never changes the columns other than `is_published`. -/
theorem publishInRootFolderSave_fields (env : Env) (kind : ObjectType) (o : Obj) :
    (publishInRootFolderSave env kind o).folder = o.folder
      ∧ (publishInRootFolderSave env kind o).id = o.id := by
  unfold publishInRootFolderSave
  split <;> exact ⟨rfl, rfl⟩

/-- C8: an object of a publication-capable kind saved with the root
folder as its direct folder is forcibly published, and the saved
object is therefore picked up by the publication overlay of every
non-ENCLAVE folder with a local view grant below the root. -/
theorem C8_root_objects_forced_published (env : Env) (kind : ObjectType) (o : Obj)
    (r : Folder)
    (hpub : kind.hasIsPublished = true)
    (hroot : getRootFolder env.folders = some r)
    (hfold : o.folder = r.id) :
    (publishInRootFolderSave env kind o).is_published = true
      ∧ ∀ (fuel folder : Nat) (user : Principal) (objs : List Obj) (f : Nat),
          kind.locator = FolderRef.direct →
          f ∈ grantKeys env fuel folder user kind.className →
          ("view_" ++ kind.className) ∈ folderGrants env fuel folder user kind.className f →
          contentOf env.folders f ≠ some ContentType.ENCLAVE →
          r.id ∈ get_parent_folders env.folders fuel f →
          publishInRootFolderSave env kind o ∈ objs →
          o.id ∈ viewOf (get_accessible_object_ids env fuel folder user kind objs) := by
  have hsave : (publishInRootFolderSave env kind o).is_published = true := by
    unfold publishInRootFolderSave
    rw [hroot]
    cases hop : o.is_published with
    | true => simp [hop]
    | false => simp [hpub, hfold, hop]
  exact ⟨hsave, fun fuel folder user objs f hloc hf hgr hct ha hmem =>
    mem_viewOf_of_published_ancestor env fuel folder user kind objs o.id hpub hloc
      f hf hgr hct (publishInRootFolderSave env kind o) hmem
      (by rw [(publishInRootFolderSave_fields env kind o).1, hfold]; exact ha)
      hsave (publishInRootFolderSave_fields env kind o).2⟩

end Iam

namespace Iam

/-- Witness for C8: saving the unpublished object 88 attached to the
root folder flips its `is_published` flag. -/
theorem C8_root_objects_forced_published_witness :
    (publishInRootFolderSave envW kindAssetW objUnpubW).is_published = true :=
  (C8_root_objects_forced_published envW kindAssetW objUnpubW rootW rfl (by decide) rfl).1

/-- C7: `create_default_ug_and_ra` changes nothing unless the folder
is a DOMAIN; on a DOMAIN it creates exactly the four builtin user
groups scoped to the folder and the four builtin role assignments,
each binding one group to its builtin role over perimeter
`{folder}` with `is_recursive = true`; and no reachable outcome holds
a partial artifact count — the tables grow by exactly 0 or exactly
4 + 4 rows. -/
theorem C7_provision_domain (env : Env) (folder root : Folder) (rR rA rN rM : Role)
    (hroot : getRootFolder env.folders = some root)
    (hrR : objectsGetRole env.roles RoleCodename.READER = some rR)
    (hrA : objectsGetRole env.roles RoleCodename.APPROVER = some rA)
    (hrN : objectsGetRole env.roles RoleCodename.ANALYST = some rN)
    (hrM : objectsGetRole env.roles RoleCodename.DOMAIN_MANAGER = some rM) :
    (folder.content_type ≠ ContentType.DOMAIN →
        create_default_ug_and_ra env folder = some env)
      ∧ (folder.content_type = ContentType.DOMAIN →
          create_default_ug_and_ra env folder = some { env with
            user_groups := env.user_groups ++
              [ { id := env.next_id, name := UserGroupCodename.READER,
                  folder := folder.id, builtin := true },
                { id := env.next_id + 1, name := UserGroupCodename.APPROVER,
                  folder := folder.id, builtin := true },
                { id := env.next_id + 2, name := UserGroupCodename.ANALYST,
                  folder := folder.id, builtin := true },
                { id := env.next_id + 3, name := UserGroupCodename.DOMAIN_MANAGER,
                  folder := folder.id, builtin := true } ],
            role_assignments := env.role_assignments ++
              [ { id := env.next_id + 4, user := none, user_group := some env.next_id,
                  role := rR, folder := root.id, perimeter_folders := [folder.id],
                  is_recursive := true, builtin := true },
                { id := env.next_id + 5, user := none, user_group := some (env.next_id + 1),
                  role := rA, folder := root.id, perimeter_folders := [folder.id],
                  is_recursive := true, builtin := true },
                { id := env.next_id + 6, user := none, user_group := some (env.next_id + 2),
                  role := rN, folder := root.id, perimeter_folders := [folder.id],
                  is_recursive := true, builtin := true },
                { id := env.next_id + 7, user := none, user_group := some (env.next_id + 3),
                  role := rM, folder := root.id, perimeter_folders := [folder.id],
                  is_recursive := true, builtin := true } ],
            next_id := env.next_id + 8 })
      ∧ ∀ env', create_default_ug_and_ra env folder = some env' →
          (env'.user_groups.length = env.user_groups.length
              ∧ env'.role_assignments.length = env.role_assignments.length)
            ∨ (env'.user_groups.length = env.user_groups.length + 4
              ∧ env'.role_assignments.length = env.role_assignments.length + 4) := by
  have hA : folder.content_type ≠ ContentType.DOMAIN →
      create_default_ug_and_ra env folder = some env := by
    intro hne
    unfold create_default_ug_and_ra
    rw [if_neg]
    simp [hne]
  refine ⟨hA, ?_, ?_⟩
  · intro heq
    unfold create_default_ug_and_ra
    rw [if_pos (by simp [heq])]
    simp only [hroot, hrR, hrA, hrN, hrM, Option.bind_eq_bind, Option.some_bind]
  · intro env' h
    by_cases hd : folder.content_type = ContentType.DOMAIN
    · unfold create_default_ug_and_ra at h
      rw [if_pos (by simp [hd])] at h
      simp only [hroot, hrR, hrA, hrN, hrM, Option.bind_eq_bind, Option.some_bind] at h
      have h2 := Option.some.inj h
      rw [← h2]
      right
      constructor <;> simp
    · rw [hA hd] at h
      have h2 := Option.some.inj h
      rw [← h2]
      left
      exact ⟨rfl, rfl⟩

/-- Witness for C7: provisioning a ROOT folder changes nothing, and
provisioning the DOMAIN folder succeeds. -/
theorem C7_provision_domain_witness :
    create_default_ug_and_ra envProvW rootW = some envProvW :=
  (C7_provision_domain envProvW rootW rootW roleReaderProvW roleApproverProvW
    roleAnalystProvW roleManagerProvW (by decide) (by decide) (by decide) (by decide)
    (by decide)).1 (by decide)

end Iam
